import Mathlib

/-! # UserForm validation contract

Embedding of `src/components/UserForm.jsx`: the yup object schema
`validationSchema`, the `yupResolver` that turns yup's error list into the
per-field error object of react-hook-form, and `handleSubmit(onSubmit)`.

The schema is written with the same combinator chain as the source.  The
combinators carry the behaviour of the yup 1.x methods they name
(`string`, `number`, `required`, `email`, `matches`, `min`, `max`, `oneOf`,
`typeError`): a schema holds an ordered table of internal tests
(type, nullability, whitelist, optionality) and an ordered list of ordinary
tests; validation first casts the value, runs every internal test, and only
when none of them failed runs every ordinary test, collecting the messages in
order (`abortEarly: false`, as the resolver asks).  The object schema visits its
keys in the order of `nodes` and sorts the collected errors by the rank of their
path among the keys of the shape; the resolver keeps, for each field, the first
message of that list.

Form values are the strings react-hook-form reads from the inputs, or nothing.
Numbers are the doubles of JavaScript, a finite one written `± m * 2 ^ e`, and a
string is converted to the nearest double.  The length of a string is its number of
UTF-16 code units.
-/

namespace UserForm

/-! ## JavaScript values -/

/-- JavaScript numbers: NaN, the two infinities and the finite doubles, a finite
double being `± m * 2 ^ e`. -/
inductive JsNumber where
  | nan
  | inf (neg : Bool)
  | fin (neg : Bool) (m : Nat) (e : Int)
  deriving Repr

/-- The values a form field or a cast form field can hold. -/
inductive JsValue where
  | undefined
  | null
  | str (s : String)
  | num (n : JsNumber)
  deriving Repr

/-- Magnitude comparison `m * 2 ^ e ≥ k` of a non-negative finite double with a
natural number. -/
def magGe (m : Nat) (e : Int) (k : Nat) : Bool :=
  if 0 ≤ e then decide (k ≤ m * 2 ^ e.toNat) else decide (k * 2 ^ (-e).toNat ≤ m)

/-- Magnitude comparison `m * 2 ^ e ≤ k`. -/
def magLe (m : Nat) (e : Int) (k : Nat) : Bool :=
  if 0 ≤ e then decide (m * 2 ^ e.toNat ≤ k) else decide (m ≤ k * 2 ^ (-e).toNat)

/-- JavaScript `x >= k` for a non-negative integer constant `k`. -/
def JsNumber.geNat (x : JsNumber) (k : Nat) : Bool :=
  match x with
  | .nan => false
  | .inf neg => !neg
  | .fin neg m e => if neg then decide (k = 0 ∧ m = 0) else magGe m e k

/-- JavaScript `x <= k` for a non-negative integer constant `k`. -/
def JsNumber.leNat (x : JsNumber) (k : Nat) : Bool :=
  match x with
  | .nan => false
  | .inf neg => neg
  | .fin neg m e => if neg then true else magLe m e k

/-- Numeric equality of two JavaScript numbers as `Array.prototype.includes`
sees it (SameValueZero: NaN equals NaN, `+0` equals `-0`). -/
def JsNumber.sameValueZero (x y : JsNumber) : Bool :=
  match x, y with
  | .nan, .nan => true
  | .inf a, .inf b => a == b
  | .fin a m e, .fin b n f =>
      (decide (m = 0) && decide (n = 0)) ||
      ((a == b) &&
        (if e ≤ f then decide (m = n * 2 ^ (f - e).toNat) else decide (m * 2 ^ (e - f).toNat = n)))
  | _, _ => false

/-- SameValueZero on the values of the form. -/
def JsValue.sameValueZero (x y : JsValue) : Bool :=
  match x, y with
  | .undefined, .undefined => true
  | .null, .null => true
  | .str a, .str b => a == b
  | .num a, .num b => a.sameValueZero b
  | _, _ => false

/-- Yup's `isAbsent`: `value == null`. -/
def JsValue.isAbsent (v : JsValue) : Bool :=
  match v with
  | .undefined => true
  | .null => true
  | _ => false

/-- The `length` of a JavaScript string: its number of UTF-16 code units, two for
a character outside the basic multilingual plane. -/
def jsLength (s : String) : Nat :=
  (s.toList.map (fun c => if c.toNat < 65536 then 1 else 2)).sum

/-! ## String to number -/

/-- The characters matched by `\s` in a JavaScript regular expression. -/
def isJsSpace (c : Char) : Bool :=
  let n := c.toNat
  (9 ≤ n && n ≤ 13) || n == 32 || n == 160 || n == 5760 || (8192 ≤ n && n ≤ 8202) ||
    n == 8232 || n == 8233 || n == 8239 || n == 8287 || n == 12288 || n == 65279

/-- Value of a digit character in a base up to 16, if it is one. -/
def digitOf (base : Nat) (c : Char) : Option Nat :=
  let n := c.toNat
  let d :=
    if 48 ≤ n ∧ n ≤ 57 then some (n - 48)
    else if 97 ≤ n ∧ n ≤ 102 then some (n - 87)
    else if 65 ≤ n ∧ n ≤ 70 then some (n - 55)
    else none
  match d with
  | some k => if k < base then some k else none
  | none => none

/-- Reads a non-empty run of digits that must be the whole input. -/
def readDigits (base : Nat) (cs : List Char) : Option Nat :=
  match cs with
  | [] => none
  | _ => cs.foldl (fun acc c => acc.bind fun a => (digitOf base c).map fun d => a * base + d) (some 0)

/-- Floor of the base-two logarithm, by halving. -/
def log2Floor (fuel n : Nat) : Nat :=
  match fuel with
  | 0 => 0
  | fuel + 1 => if n < 2 then 0 else log2Floor fuel (n / 2) + 1

/-- The double nearest to the non-negative rational `num / den` (ties to even),
with the sign `neg`; overflow gives an infinity. -/
def roundBinary64 (neg : Bool) (num den : Nat) : JsNumber :=
  if num = 0 then .fin neg 0 0
  else
    let a : Int := log2Floor num num
    let b : Int := log2Floor den den
    -- floor of log2 (num / den) is `a - b` or `a - b - 1`
    let l : Int :=
      if 0 ≤ a - b then (if den * 2 ^ (a - b).toNat ≤ num then a - b else a - b - 1)
      else (if den ≤ num * 2 ^ (b - a).toNat then a - b else a - b - 1)
    let e : Int := max (l - 52) (-1074)
    let n1 : Nat := if 0 ≤ e then num else num * 2 ^ (-e).toNat
    let d1 : Nat := if 0 ≤ e then den * 2 ^ e.toNat else den
    let q := n1 / d1
    let r := n1 % d1
    let m := if d1 < 2 * r ∨ (2 * r = d1 ∧ q % 2 = 1) then q + 1 else q
    if 971 < e ∨ (e = 971 ∧ 2 ^ 53 ≤ m) then .inf neg else .fin neg m e

/-- Splits a list at the first character satisfying `p`, dropping that
character: `none` in the second component when there is none. -/
def splitAtChar (p : Char → Bool) (cs : List Char) : List Char × Option (List Char) :=
  match cs with
  | [] => ([], none)
  | c :: rest =>
      if p c then ([], some rest)
      else
        let (l, r) := splitAtChar p rest
        (c :: l, r)

/-- An optionally signed run of decimal digits (the exponent of a literal). -/
def readSignedInt (cs : List Char) : Option Int :=
  match cs with
  | '+' :: rest => (readDigits 10 rest).map Int.ofNat
  | '-' :: rest => (readDigits 10 rest).map fun n => - Int.ofNat n
  | _ => (readDigits 10 cs).map Int.ofNat

/-- An unsigned decimal literal `digits [. digits] [e exponent]` or
`. digits [e exponent]`, as mantissa digits and a power of ten. -/
def readUnsignedDecimal (cs : List Char) : Option (Nat × Int) :=
  let (mant, expo) := splitAtChar (fun c => c == 'e' || c == 'E') cs
  let ex : Option Int :=
    match expo with
    | none => some 0
    | some es => readSignedInt es
  let (ip, fpo) := splitAtChar (fun c => c == '.') mant
  let fp := fpo.getD []
  let iv : Option Nat := if ip.isEmpty then (if fp.isEmpty then none else some 0) else readDigits 10 ip
  let fv : Option Nat := if fp.isEmpty then some 0 else readDigits 10 fp
  match ex, iv, fv with
  | some x, some i, some f => some (i * 10 ^ fp.length + f, x - fp.length)
  | _, _, _ => none

/-- The double of `n * 10 ^ k`. -/
def decimalToDouble (neg : Bool) (n : Nat) (k : Int) : JsNumber :=
  if 0 ≤ k then roundBinary64 neg (n * 10 ^ k.toNat) 1 else roundBinary64 neg n (10 ^ (-k).toNat)

/-- An unsigned `StrDecimalLiteral`: `Infinity` or a decimal literal. -/
def readStrDecimal (neg : Bool) (cs : List Char) : JsNumber :=
  if cs = "Infinity".toList then .inf neg
  else
    match readUnsignedDecimal cs with
    | some (n, k) => decimalToDouble neg n k
    | none => .nan

/-- JavaScript `+s` (StringToNumber) for a string without white space that is not
empty. -/
def stringToNumber (cs : List Char) : JsNumber :=
  match cs with
  | '0' :: p :: rest =>
      let base : Option Nat :=
        if p == 'x' || p == 'X' then some 16
        else if p == 'o' || p == 'O' then some 8
        else if p == 'b' || p == 'B' then some 2
        else none
      match base with
      | some b =>
          match readDigits b rest with
          | some n => roundBinary64 false n 1
          | none => .nan
      | none => readStrDecimal false cs
  | '+' :: rest => readStrDecimal false rest
  | '-' :: rest => readStrDecimal true rest
  | _ => readStrDecimal false cs

/-- The number a number schema casts a string to: every `\s` character is removed;
the empty remainder is NaN and any other is converted with unary plus. -/
def castNumber (s : String) : JsNumber :=
  let parsed := s.toList.filter fun c => !isJsSpace c
  if parsed.isEmpty then .nan else stringToNumber parsed

/-! ## Regular expressions of the schema -/

/-- The pattern `/^\d{10}$/` of the phone number, as `value.search(re) !== -1`. -/
def phonePattern (s : String) : Bool :=
  s.toList.length == 10 && s.toList.all fun c => 48 ≤ c.toNat && c.toNat ≤ 57

/-- Letters and digits `[a-zA-Z0-9]`. -/
def isAlnum (c : Char) : Bool :=
  let n := c.toNat
  (48 ≤ n && n ≤ 57) || (65 ≤ n && n ≤ 90) || (97 ≤ n && n ≤ 122)

/-- The class of the local part of yup's email pattern: letters, digits and
``.!#$%&'*+/=?^_`{|}~-``. -/
def isAtext (c : Char) : Bool :=
  isAlnum c ||
    [46, 33, 35, 36, 37, 38, 39, 42, 43, 47, 61, 63, 94, 95, 96, 123, 124, 125, 126, 45].contains c.toNat

/-- One domain label `[a-zA-Z0-9](?:[a-zA-Z0-9-]{0,61}[a-zA-Z0-9])?`. -/
def isLabel (cs : List Char) : Bool :=
  match cs, cs.getLast? with
  | c :: _, some d =>
      isAlnum c && isAlnum d && decide (cs.length ≤ 63) && cs.all fun x => isAlnum x || x == '-'
  | _, _ => false

/-- Splits a list at every character satisfying `p`. -/
def splitOnChar (p : Char → Bool) : List Char → List (List Char)
  | [] => [[]]
  | c :: rest =>
      match splitOnChar p rest with
      | [] => [[]]
      | l :: ls => if p c then [] :: l :: ls else (c :: l) :: ls

/-- Yup's email pattern `rEmail`: a non-empty local part over `isAtext`, an `@`,
and one or more labels separated by dots. -/
def rEmail (s : String) : Bool :=
  match splitAtChar (fun c => c == '@') s.toList with
  | (loc, some dom) =>
      !loc.isEmpty && loc.all isAtext && (splitOnChar (fun c => c == '.') dom).all isLabel
  | (_, none) => false

/-! ## The form -/

/-- The keys of `validationSchema`, in the order they are declared. -/
inductive Field where
  | firstName | lastName | email | phoneNumber | password | confirmPassword
  | age | gender | messageCntrl
  deriving DecidableEq, Repr

/-- The raw values of the form as react-hook-form reads them from the inputs:
a string per registered field, or nothing (`undefined`). -/
structure FormValues where
  firstName : Option String
  lastName : Option String
  email : Option String
  phoneNumber : Option String
  password : Option String
  confirmPassword : Option String
  age : Option String
  gender : Option String
  messageCntrl : Option String
  deriving DecidableEq, Repr

/-- Property access `values[field]`. -/
def FormValues.get (v : FormValues) : Field → Option String
  | .firstName => v.firstName
  | .lastName => v.lastName
  | .email => v.email
  | .phoneNumber => v.phoneNumber
  | .password => v.password
  | .confirmPassword => v.confirmPassword
  | .age => v.age
  | .gender => v.gender
  | .messageCntrl => v.messageCntrl

/-- The cast object: the value of each key after the schema's cast. -/
abbrev FormObject := Field → JsValue

/-! ## Yup schemas -/

/-- The two schema types used by the form. -/
inductive SchemaType where
  | string
  | number
  deriving DecidableEq, Repr

/-- One validation of a schema (`createValidation`): its name, its message, whether
a same-named test replaces the earlier one, whether it is skipped on an absent
value, and the test on the value and the parent object. -/
structure Test where
  name : String
  message : String
  exclusive : Bool
  skipAbsent : Bool
  test : JsValue → FormObject → Bool

/-- A schema: its type, the table of internal tests in insertion order, and the
ordinary tests in the order the chain added them. -/
structure Schema where
  type : SchemaType
  internalTests : List (String × Test)
  tests : List Test

/-- Assignment `table[key] = t` on a JavaScript object: an existing key keeps its
place, a new key goes last. -/
def setKey (key : String) (t : Test) : List (String × Test) → List (String × Test)
  | [] => [(key, t)]
  | (k, u) :: rest => if k = key then (key, t) :: rest else (k, u) :: setKey key t rest

/-- The type check of a schema: `typeof value === 'string'`, respectively
`typeof value === 'number' && !isNaN(value)`. -/
def typeCheck (ty : SchemaType) (v : JsValue) : Bool :=
  match ty, v with
  | .string, .str _ => true
  | .number, .num .nan => false
  | .number, .num _ => true
  | _, _ => false

/-- The internal test installed by `typeError(message)`. -/
def typeErrorTest (ty : SchemaType) (message : String) : Test where
  name := "typeError"
  message := message
  exclusive := false
  skipAbsent := true
  test := fun v _ => typeCheck ty v

/-- The internal test installed by `nonNullable(message)`: `null` fails. -/
def nullableTest (message : String) : Test where
  name := "nullable"
  message := message
  exclusive := false
  skipAbsent := false
  test := fun v _ =>
    match v with
    | .null => false
    | _ => true

/-- The internal test installed by `defined(message)`: `undefined` fails. -/
def optionalityTest (message : String) : Test where
  name := "optionality"
  message := message
  exclusive := false
  skipAbsent := false
  test := fun v _ =>
    match v with
    | .undefined => false
    | _ => true

/-- The method `typeError(message)`. -/
def Schema.typeError (s : Schema) (message : String) : Schema :=
  { s with internalTests := setKey "typeError" (typeErrorTest s.type message) s.internalTests }

/-- The method `nonNullable(message)`. -/
def Schema.nonNullable (s : Schema) (message : String) : Schema :=
  { s with internalTests := setKey "nullable" (nullableTest message) s.internalTests }

/-- The method `defined(message)`. -/
def Schema.defined (s : Schema) (message : String) : Schema :=
  { s with internalTests := setKey "optionality" (optionalityTest message) s.internalTests }

/-- The method `test(opts)`: an exclusive test removes the earlier tests of its
name, and the new test goes last. -/
def Schema.test (s : Schema) (t : Test) : Schema :=
  { s with tests := (s.tests.filter fun u => !(u.name == t.name && t.exclusive)) ++ [t] }

/-- Default message of the type test (never produced by this form). -/
def defaultNotType : String := "this must be of the schema type"

/-- Default message of the nullability test (never produced by this form). -/
def defaultNotNull : String := "this cannot be null"

/-- The schema constructor: the default type test, then the default nullability
test. -/
def mkSchema (ty : SchemaType) : Schema :=
  (Schema.typeError { type := ty, internalTests := [], tests := [] } defaultNotType).nonNullable
    defaultNotNull

/-- The constructor `Yup.string()`. -/
def Yup.string : Schema := mkSchema .string

/-- The constructor `Yup.number()`. -/
def Yup.number : Schema := mkSchema .number

/-- An entry of a `oneOf` list: a literal value or a reference to a sibling key. -/
inductive Enum where
  | lit (v : JsValue)
  | ref (key : Field)

/-- The reference `Yup.ref(key)`. -/
def Yup.ref (key : Field) : Enum := .ref key

/-- Resolution of a `oneOf` entry against the parent object. -/
def Enum.resolve (parent : FormObject) : Enum → JsValue
  | .lit v => v
  | .ref key => parent key

/-- The method `required(message)`: `nonNullable(message).defined(message)`, and on
a string schema also the ordinary test `required` that checks `!!value.length`. -/
def Schema.required (s : Schema) (message : String) : Schema :=
  let base := (s.nonNullable message).defined message
  match s.type with
  | .string =>
      base.test
        { name := "required", message := message, exclusive := false, skipAbsent := true,
          test := fun v _ =>
            match v with
            | .str x => jsLength x != 0
            | _ => false }
  | .number => base

/-- The string method `matches(regex, options)` with its options spelled out: the
test is `(value === '' && excludeEmptyString) || value.search(regex) !== -1`. -/
def Schema.matchesWith (s : Schema) (regex : String → Bool) (name message : String)
    (excludeEmptyString : Bool) : Schema :=
  s.test
    { name := name, message := message, exclusive := false, skipAbsent := true,
      test := fun v _ =>
        match v with
        | .str x => (x == "" && excludeEmptyString) || regex x
        | _ => false }

/-- The string method `matches(regex, message)`. -/
def Schema.matches (s : Schema) (regex : String → Bool) (message : String) : Schema :=
  s.matchesWith regex "matches" message false

/-- The string method `email(message)`: `matches(rEmail, ...)` with
`excludeEmptyString: true`. -/
def Schema.email (s : Schema) (message : String) : Schema :=
  s.matchesWith rEmail "email" message true

/-- The method `min(limit, message)`: on a string `value.length >= limit`, on a
number `value >= limit`. -/
def Schema.min (s : Schema) (limit : Nat) (message : String) : Schema :=
  s.test
    { name := "min", message := message, exclusive := true, skipAbsent := true,
      test := fun v _ =>
        match s.type, v with
        | .string, .str x => decide (limit ≤ jsLength x)
        | .number, .num n => n.geNat limit
        | _, _ => false }

/-- The number method `max(limit, message)`: `value <= limit`. -/
def Schema.max (s : Schema) (limit : Nat) (message : String) : Schema :=
  s.test
    { name := "max", message := message, exclusive := true, skipAbsent := true,
      test := fun v _ =>
        match v with
        | .num n => n.leNat limit
        | _ => false }

/-- The internal test installed by `oneOf(enums, message)`: the entries are
resolved against the parent and the test is `resolved.includes(value)`. -/
def whiteListTest (enums : List Enum) (message : String) : Test where
  name := "oneOf"
  message := message
  exclusive := false
  skipAbsent := true
  test := fun v parent => (enums.map (Enum.resolve parent)).any fun r => r.sameValueZero v

/-- The method `oneOf(enums, message)`. -/
def Schema.oneOf (s : Schema) (enums : List Enum) (message : String) : Schema :=
  { s with internalTests := setKey "whiteList" (whiteListTest enums message) s.internalTests }

/-- The cast of a raw form value by a schema: `undefined` stays, a string schema
keeps the string, a number schema converts it. -/
def Schema.cast (s : Schema) (raw : Option String) : JsValue :=
  match raw with
  | none => .undefined
  | some x =>
      match s.type with
      | .string => .str x
      | .number => .num (castNumber x)

/-- The method `runTests` without early exit: every test runs, a test marked
`skipAbsent` passes on an absent value, and the messages of the failed tests are
kept in order. -/
def runTests (tests : List Test) (value : JsValue) (parent : FormObject) : List String :=
  tests.filterMap fun t =>
    if (t.skipAbsent && value.isAbsent) || t.test value parent then none else some t.message

/-- Validation of an already cast value: the internal tests, and the ordinary
tests only when no internal test failed. -/
def Schema.validate (s : Schema) (value : JsValue) (parent : FormObject) : List String :=
  let initialErrors := runTests (s.internalTests.map Prod.snd) value parent
  if initialErrors.isEmpty then runTests s.tests value parent else initialErrors

/-! ## The schema of the form -/

/-- The schema `validationSchema` of `UserForm.jsx`. -/
def validationSchema : List (Field × Schema) :=
  [ (.firstName, Yup.string.required "First Name is required"),
    (.lastName, Yup.string.required "Last Name is required"),
    (.email, (Yup.string.email "Invalid email format").required "Email is required"),
    (.phoneNumber,
      (Yup.string.matches phonePattern "Phone Number must be 10 digits").required
        "Phone Number is required"),
    (.password,
      (Yup.string.min 8 "Password must be at least 8 characters").required "Password is required"),
    (.confirmPassword,
      (Yup.string.oneOf [Yup.ref .password] "Passwords must match").required
        "Confirm Password is required"),
    (.age,
      (((Yup.number.typeError "Age must be a number").min 18
        "You must be at least 18 years old").max 120
        "Age must be less than or equal to 120").required "Age is required"),
    (.gender, Yup.string.required "Gender is required"),
    (.messageCntrl, Yup.string.required "Message is required") ]

/-- The object cast: each key of the shape cast by its schema. -/
def castObject (v : FormValues) : FormObject := fun key =>
  match validationSchema.lookup key with
  | some s => s.cast (v.get key)
  | none => .undefined

/-- The name of a key, as it is written in the shape. -/
def Field.name : Field → String
  | .firstName => "firstName"
  | .lastName => "lastName"
  | .email => "email"
  | .phoneNumber => "phoneNumber"
  | .password => "password"
  | .confirmPassword => "confirmPassword"
  | .age => "age"
  | .gender => "gender"
  | .messageCntrl => "messageCntrl"

/-- The keys of the shape in the order the object schema visits them (`_nodes`): the
reverse of the declaration order, a referenced key before the key that refers to it. -/
def nodes : List Field :=
  [.messageCntrl, .gender, .age, .password, .confirmPassword, .phoneNumber, .email,
    .lastName, .firstName]

/-- JavaScript `path.includes(key)`: `key` occurs somewhere in `path`. -/
def includes (path key : String) : Bool :=
  path.toList.tails.any fun t => key.toList.isPrefixOf t

/-- The rank `sortByKeyOrder` gives an error: the index of the first key of the shape
that its path includes (the number of keys when there is none). -/
def findIndex (keys : List Field) (path : Field) : Nat :=
  keys.findIdx fun key => includes path.name key.name

/-- Insertion of an error in a list sorted by rank, before the first error whose
rank is not smaller. -/
def insertByRank (rank : Field → Nat) (e : Field × String) :
    List (Field × String) → List (Field × String)
  | [] => [e]
  | b :: rest =>
      if rank e.1 ≤ rank b.1 then e :: b :: rest else b :: insertByRank rank e rest

/-- The stable sort of the errors by rank (`fieldErrors.sort(this._sortErrors)`). -/
def sortByKeyOrder (rank : Field → Nat) (errs : List (Field × String)) :
    List (Field × String) :=
  errs.foldr (insertByRank rank) []

/-- The errors of the keys in the order they are visited, each with its path. -/
def collectErrors (v : FormValues) : List (Field × String) :=
  nodes.flatMap fun key =>
    match validationSchema.lookup key with
    | some s => (s.validate (castObject v key) (castObject v)).map fun m => (key, m)
    | none => []

/-- The object validation with `abortEarly: false`: the messages of every key, each
with its path, sorted by the rank of the path among the keys of the shape. -/
def validateObject (v : FormValues) : List (Field × String) :=
  sortByKeyOrder (findIndex (validationSchema.map Prod.fst)) (collectErrors v)

/-! ## Resolver and submission -/

/-- The error object of the form: a message per field that has one. -/
abbrev ErrorMap := List (Field × String)

/-- The resolver's `parseErrorSchema`: the first error of each path is kept. -/
def parseErrorSchema (inner : List (Field × String)) : ErrorMap :=
  inner.foldl (fun previous e => if (previous.lookup e.1).isSome then previous else previous ++ [e])
    []

/-- What the resolver returns: the cast values and no error, or no value and the
errors. -/
structure ResolverResult where
  values : FormObject
  errors : ErrorMap

/-- The resolver `yupResolver(validationSchema)`. -/
def yupResolver (v : FormValues) : ResolverResult :=
  let inner := validateObject v
  if inner.isEmpty then { values := castObject v, errors := [] }
  else { values := fun _ => .undefined, errors := parseErrorSchema inner }

/-- The validation of the form values: the error object the resolver returns. -/
def validate (v : FormValues) : ErrorMap := (yupResolver v).errors

/-- The function `handleSubmit(onSubmit)` of react-hook-form, the handler acting on a
state `σ`: the resolver runs, and the handler is called with the resolver's values
when the error object is empty. -/
def handleSubmit {σ : Type} (onSubmit : FormObject → σ → σ) (v : FormValues) (st : σ) : σ :=
  let r := yupResolver v
  if r.errors.isEmpty then onSubmit r.values st else st

/-! ## The error object and the errors of one field -/

/-- The messages yup collects for one key of the shape. -/
def fieldErrors (v : FormValues) (key : Field) : List String :=
  match validationSchema.lookup key with
  | some s => s.validate (castObject v key) (castObject v)
  | none => []

/-! ## The rules as the specification words them -/

/-- The option values of the gender `select` of the form. -/
def genderOptions : List String := ["", "Male", "Female", "Other"]

/-- The trimming of leading and trailing white space (`String.prototype.trim`). -/
def jsTrim (s : String) : List Char :=
  ((s.toList.dropWhile isJsSpace).reverse.dropWhile isJsSpace).reverse

/-- Specification rule of firstName and lastName: non-empty after trimming. -/
def specNameOk (s : String) : Bool := !(jsTrim s).isEmpty

/-- The part of an address before its first `@`. -/
def localPart (s : String) : List Char := s.toList.takeWhile fun c => c != '@'

/-- The part of an address after its first `@`, when it has one. -/
def domainPart (s : String) : Option (List Char) :=
  match s.toList.dropWhile fun c => c != '@' with
  | _ :: dom => some dom
  | [] => none

/-- Specification rule of email, in the words of the claim: non-empty and of the form
local@domain (a non-empty local part, one `@`, a non-empty domain) with a dot in the
domain. -/
def specEmailOk (s : String) : Bool :=
  s != "" &&
    match domainPart s with
    | some dom =>
        !(localPart s).isEmpty && !dom.isEmpty && !dom.contains '@' && dom.contains '.'
    | none => false

/-- The characters the amended rule allows in the local part: letters, digits and
``.!#$%&'*+/=?^_`{|}~-``. -/
def amendedLocalChar (c : Char) : Bool :=
  c.isAlphanum || ".!#$%&\x27*+/=?^_\x60\x7b|\x7d~-".toList.contains c

/-- A label of the domain under the amended rule: 1 to 63 letters, digits or hyphens,
the first and the last a letter or a digit. -/
def amendedLabelOk (l : List Char) : Bool :=
  decide (1 ≤ l.length ∧ l.length ≤ 63) && l.all (fun c => c.isAlphanum || c == '-') &&
    l.head?.any Char.isAlphanum && l.getLast?.any Char.isAlphanum

/-- The amended rule of email: the rule of the claim, the local part over the allowed
characters and the domain made of well-formed labels separated by dots. -/
def amendedEmailOk (s : String) : Bool :=
  specEmailOk s && (localPart s).all amendedLocalChar &&
    match domainPart s with
    | some dom => (dom.splitOn '.').all amendedLabelOk
    | none => false

/-- Specification rule of phoneNumber: exactly ten characters, each a decimal digit. -/
def specPhoneOk (s : String) : Bool := s.length == 10 && s.toList.all Char.isDigit

/-- Specification rule of password: length at least 8. -/
def specPasswordOk (s : String) : Bool := decide (8 ≤ jsLength s)

/-- Specification rule of age: the input parses as a number between 18 and 120. -/
def specAgeOk (s : String) : Bool :=
  match castNumber s with
  | .nan => false
  | n => n.geNat 18 && n.leNat 120

/-- Specification rule of gender: one of the enumerated values. -/
def specGenderOk (s : String) : Bool := s == "Male" || s == "Female" || s == "Other"

/-- A raw value that is present and satisfies a rule. -/
def holdsOn (rule : String → Bool) (raw : Option String) : Bool :=
  match raw with
  | some s => rule s
  | none => false

/-- Every field but email satisfies its rule as the specification lists them. -/
def otherRulesHold (v : FormValues) : Bool :=
  holdsOn specNameOk v.firstName && holdsOn specNameOk v.lastName &&
    holdsOn specPhoneOk v.phoneNumber &&
    holdsOn specPasswordOk v.password &&
    (v.confirmPassword.isSome && v.confirmPassword == v.password) &&
    holdsOn specAgeOk v.age && holdsOn specGenderOk v.gender &&
    holdsOn (fun s => s != "") v.messageCntrl

/-- Every field satisfies its rule as the specification lists them. -/
def specValid (v : FormValues) : Bool :=
  otherRulesHold v && holdsOn specEmailOk v.email

/-- Every field satisfies its rule, the one of email being the amended rule. -/
def amendedValid (v : FormValues) : Bool :=
  otherRulesHold v && holdsOn amendedEmailOk v.email

/-- The required-message the schema declares for each field. -/
def requiredMessage : Field → String
  | .firstName => "First Name is required"
  | .lastName => "Last Name is required"
  | .email => "Email is required"
  | .phoneNumber => "Phone Number is required"
  | .password => "Password is required"
  | .confirmPassword => "Confirm Password is required"
  | .age => "Age is required"
  | .gender => "Gender is required"
  | .messageCntrl => "Message is required"

/-- A form in which every field is valid, the message being `Hello`. -/
def validForm : FormValues where
  firstName := some "Ann"
  lastName := some "Lee"
  email := some "ann@example.com"
  phoneNumber := some "0123456789"
  password := some "secret12"
  confirmPassword := some "secret12"
  age := some "30"
  gender := some "Female"
  messageCntrl := some "Hello"

/-- The valid form with an underscore in the domain of the address. -/
def underscoreForm : FormValues := { validForm with email := some "ann@exam_ple.com" }

/-- The form as it is before any input: every field the empty string. -/
def emptyForm : FormValues where
  firstName := some ""
  lastName := some ""
  email := some ""
  phoneNumber := some ""
  password := some ""
  confirmPassword := some ""
  age := some ""
  gender := some ""
  messageCntrl := some ""

/-- The calls of a handler that records its argument, after one submit attempt. -/
def submitCalls (v : FormValues) : List FormObject :=
  handleSubmit (fun data log => log ++ [data]) v []

/-! ## Lemmas on the resolver -/

theorem lookup_foldl_parse (inner acc : List (Field × String)) (f : Field) :
    (inner.foldl
        (fun previous e => if (previous.lookup e.1).isSome then previous else previous ++ [e])
        acc).lookup f = (acc ++ inner).lookup f := by
  induction inner generalizing acc with
  | nil => simp
  | cons e rest ih =>
    rw [List.foldl_cons, ih]
    by_cases h : (List.lookup e.1 acc).isSome
    · rw [if_pos h, List.lookup_append, List.lookup_append, List.lookup_cons]
      by_cases hf : f = e.1
      · subst hf
        obtain ⟨b, hb⟩ := Option.isSome_iff_exists.mp h
        simp [hb]
      · have hne : (f == e.1) = false := by simpa using hf
        rw [hne]
    · rw [if_neg h, List.append_assoc]
      rfl

theorem lookup_parseErrorSchema (inner : List (Field × String)) (f : Field) :
    (parseErrorSchema inner).lookup f = inner.lookup f := by
  simpa [parseErrorSchema] using lookup_foldl_parse inner [] f

theorem parseErrorSchema_eq_nil (inner : List (Field × String)) :
    parseErrorSchema inner = [] ↔ inner = [] := by
  constructor
  · intro h
    cases inner with
    | nil => rfl
    | cons e rest =>
      have h1 := lookup_parseErrorSchema (e :: rest) e.1
      rw [h, List.lookup_cons] at h1
      simp at h1
  · intro h
    subst h
    rfl

theorem validate_eq (v : FormValues) : validate v = parseErrorSchema (validateObject v) := by
  unfold validate yupResolver
  by_cases h : (validateObject v).isEmpty
  · have h0 : validateObject v = [] := by simpa using h
    simp [h0, parseErrorSchema]
  · simp [h]

theorem lookup_map_key (g f : Field) (l : List String) :
    (l.map fun m => (g, m)).lookup f = if f = g then l.head? else none := by
  cases l with
  | nil => simp
  | cons a t =>
    by_cases h : f = g
    · subst h
      simp [List.lookup_cons]
    · have : (f == g) = false := by simpa using h
      simp only [List.map_cons, List.lookup_cons, this, if_neg h]
      induction t with
      | nil => simp
      | cons b t ih => simp [List.lookup_cons, this, ih]

theorem lookup_insertByRank (rank : Field → Nat) (e : Field × String)
    (l : List (Field × String)) (f : Field) :
    (insertByRank rank e l).lookup f = (e :: l).lookup f := by
  induction l with
  | nil => rfl
  | cons b rest ih =>
    unfold insertByRank
    by_cases h : rank e.1 ≤ rank b.1
    · rw [if_pos h]
    · rw [if_neg h, List.lookup_cons, ih, List.lookup_cons, List.lookup_cons, List.lookup_cons]
      have hne : e.1 ≠ b.1 := by
        intro heq
        rw [heq] at h
        exact h (Nat.le_refl _)
      by_cases hb : f = b.1
      · subst hb
        have hfe : (b.1 == e.1) = false := by simpa using fun h' => hne h'.symm
        simp [hfe]
      · have hfb : (f == b.1) = false := by simpa using hb
        simp [hfb]

theorem lookup_sortByKeyOrder (rank : Field → Nat) (l : List (Field × String)) (f : Field) :
    (sortByKeyOrder rank l).lookup f = l.lookup f := by
  induction l with
  | nil => rfl
  | cons e rest ih =>
    show (insertByRank rank e (sortByKeyOrder rank rest)).lookup f = _
    rw [lookup_insertByRank, List.lookup_cons, List.lookup_cons, ih]

theorem length_insertByRank (rank : Field → Nat) (e : Field × String)
    (l : List (Field × String)) : (insertByRank rank e l).length = l.length + 1 := by
  induction l with
  | nil => rfl
  | cons b rest ih =>
    unfold insertByRank
    by_cases h : rank e.1 ≤ rank b.1
    · rw [if_pos h]
      rfl
    · rw [if_neg h, List.length_cons, ih, List.length_cons]

theorem sortByKeyOrder_eq_nil (rank : Field → Nat) (l : List (Field × String)) :
    sortByKeyOrder rank l = [] ↔ l = [] := by
  cases l with
  | nil => exact ⟨fun _ => rfl, fun _ => rfl⟩
  | cons e rest =>
    constructor
    · intro h
      have hlen := length_insertByRank rank e (sortByKeyOrder rank rest)
      have h' : insertByRank rank e (sortByKeyOrder rank rest) = [] := h
      rw [h'] at hlen
      simp at hlen
    · intro h
      exact absurd h (by simp)

theorem collectErrors_eq (v : FormValues) :
    collectErrors v =
      nodes.flatMap fun key => (fieldErrors v key).map fun m => (key, m) := by
  rfl

/-- The entry of a field in the error object is the first message yup collected
for it. -/
theorem lookup_validate (v : FormValues) (f : Field) :
    (validate v).lookup f = (fieldErrors v f).head? := by
  rw [validate_eq, lookup_parseErrorSchema]
  unfold validateObject
  rw [lookup_sortByKeyOrder, collectErrors_eq]
  cases f <;> simp [nodes, List.lookup_append, lookup_map_key]

/-- The error object is empty exactly when no field has a message. -/
theorem validate_eq_nil (v : FormValues) :
    validate v = [] ↔ ∀ f, fieldErrors v f = [] := by
  rw [validate_eq, parseErrorSchema_eq_nil]
  unfold validateObject
  rw [sortByKeyOrder_eq_nil, collectErrors_eq]
  constructor
  · intro h f
    cases f <;> simp_all [nodes]
  · intro h
    simp [h, nodes]

theorem jsLength_eq_zero (s : String) : jsLength s = 0 ↔ s = "" := by
  constructor
  · intro h
    unfold jsLength at h
    cases hs : s.toList with
    | nil =>
      apply String.ext
      simpa using hs
    | cons c t =>
      rw [hs] at h
      simp only [List.map_cons, List.sum_cons] at h
      split at h <;> omega
  · intro h
    subst h
    rfl

theorem castObject_apply (v : FormValues) (key : Field) :
    castObject v key =
      match v.get key with
      | none => .undefined
      | some x => if key = .age then .num (castNumber x) else .str x := by
  cases key <;> cases h : v.get _ <;> simp [castObject, h] <;> rfl

/-- Messages of a schema `Yup.string().required(message)`. -/
theorem required_only_errors (message : String) (raw : Option String) (parent : FormObject) :
    (Yup.string.required message).validate
        (match raw with
          | none => .undefined
          | some x => .str x) parent =
      match raw with
      | none => [message]
      | some s => if s = "" then [message] else [] := by
  cases raw <;> simp +decide [Schema.validate, runTests, Schema.required, Yup.string, mkSchema,
    Schema.typeError, Schema.nonNullable, Schema.defined, Schema.test, setKey, typeErrorTest,
    nullableTest, optionalityTest, JsValue.isAbsent, typeCheck, jsLength_eq_zero,
    List.filterMap_cons]
  split_ifs <;> simp_all

theorem fieldErrors_firstName (v : FormValues) :
    fieldErrors v .firstName =
      match v.firstName with
      | none => ["First Name is required"]
      | some s => if s = "" then ["First Name is required"] else [] := by
  have h1 : fieldErrors v .firstName =
      (Yup.string.required "First Name is required").validate (castObject v .firstName)
        (castObject v) := rfl
  rw [h1, castObject_apply]
  exact required_only_errors _ v.firstName _

theorem fieldErrors_lastName (v : FormValues) :
    fieldErrors v .lastName =
      match v.lastName with
      | none => ["Last Name is required"]
      | some s => if s = "" then ["Last Name is required"] else [] := by
  have h1 : fieldErrors v .lastName =
      (Yup.string.required "Last Name is required").validate (castObject v .lastName)
        (castObject v) := rfl
  rw [h1, castObject_apply]
  exact required_only_errors _ v.lastName _

theorem fieldErrors_gender (v : FormValues) :
    fieldErrors v .gender =
      match v.gender with
      | none => ["Gender is required"]
      | some s => if s = "" then ["Gender is required"] else [] := by
  have h1 : fieldErrors v .gender =
      (Yup.string.required "Gender is required").validate (castObject v .gender)
        (castObject v) := rfl
  rw [h1, castObject_apply]
  exact required_only_errors _ v.gender _

theorem fieldErrors_messageCntrl (v : FormValues) :
    fieldErrors v .messageCntrl =
      match v.messageCntrl with
      | none => ["Message is required"]
      | some s => if s = "" then ["Message is required"] else [] := by
  have h1 : fieldErrors v .messageCntrl =
      (Yup.string.required "Message is required").validate (castObject v .messageCntrl)
        (castObject v) := rfl
  rw [h1, castObject_apply]
  exact required_only_errors _ v.messageCntrl _

theorem fieldErrors_email (v : FormValues) :
    fieldErrors v .email =
      match v.email with
      | none => ["Email is required"]
      | some s =>
          if s = "" then ["Email is required"]
          else if rEmail s then [] else ["Invalid email format"] := by
  have h1 : fieldErrors v .email =
      ((Yup.string.email "Invalid email format").required "Email is required").validate
        (castObject v .email) (castObject v) := rfl
  rw [h1, castObject_apply]
  cases h : v.email <;> simp +decide [FormValues.get, h, Schema.validate, runTests,
    Schema.required, Schema.email, Schema.matchesWith, Yup.string, mkSchema,
    Schema.typeError, Schema.nonNullable, Schema.defined, Schema.test, setKey, typeErrorTest,
    nullableTest, optionalityTest, JsValue.isAbsent, typeCheck, jsLength_eq_zero,
    List.filterMap_cons]
  split_ifs <;> simp_all

theorem fieldErrors_phoneNumber (v : FormValues) :
    fieldErrors v .phoneNumber =
      match v.phoneNumber with
      | none => ["Phone Number is required"]
      | some s =>
          (if phonePattern s then [] else ["Phone Number must be 10 digits"]) ++
            (if s = "" then ["Phone Number is required"] else []) := by
  have h1 : fieldErrors v .phoneNumber =
      ((Yup.string.matches phonePattern "Phone Number must be 10 digits").required
        "Phone Number is required").validate (castObject v .phoneNumber) (castObject v) := rfl
  rw [h1, castObject_apply]
  cases h : v.phoneNumber <;> simp +decide [FormValues.get, h, Schema.validate, runTests,
    Schema.required, Schema.matches, Schema.matchesWith, Yup.string, mkSchema,
    Schema.typeError, Schema.nonNullable, Schema.defined, Schema.test, setKey, typeErrorTest,
    nullableTest, optionalityTest, JsValue.isAbsent, typeCheck, jsLength_eq_zero,
    List.filterMap_cons]
  split_ifs <;> simp_all

theorem fieldErrors_password (v : FormValues) :
    fieldErrors v .password =
      match v.password with
      | none => ["Password is required"]
      | some s =>
          (if 8 ≤ jsLength s then [] else ["Password must be at least 8 characters"]) ++
            (if s = "" then ["Password is required"] else []) := by
  have h1 : fieldErrors v .password =
      ((Yup.string.min 8 "Password must be at least 8 characters").required
        "Password is required").validate (castObject v .password) (castObject v) := rfl
  rw [h1, castObject_apply]
  cases h : v.password <;> simp +decide [FormValues.get, h, Schema.validate, runTests,
    Schema.required, Schema.min, Yup.string, mkSchema,
    Schema.typeError, Schema.nonNullable, Schema.defined, Schema.test, setKey, typeErrorTest,
    nullableTest, optionalityTest, JsValue.isAbsent, typeCheck, jsLength_eq_zero,
    List.filterMap_cons]
  split_ifs <;> simp_all

theorem fieldErrors_confirmPassword (v : FormValues) :
    fieldErrors v .confirmPassword =
      match v.confirmPassword with
      | none => ["Confirm Password is required"]
      | some c =>
          if v.password = some c then
            (if c = "" then ["Confirm Password is required"] else [])
          else ["Passwords must match"] := by
  have h1 : fieldErrors v .confirmPassword =
      ((Yup.string.oneOf [Yup.ref .password] "Passwords must match").required
        "Confirm Password is required").validate (castObject v .confirmPassword)
        (castObject v) := rfl
  rw [h1, castObject_apply]
  cases h : v.confirmPassword <;> cases hp : v.password <;>
    simp +decide [FormValues.get, h, hp, Schema.validate, runTests,
    Schema.required, Schema.oneOf, whiteListTest, Enum.resolve, Yup.ref, Yup.string, mkSchema,
    Schema.typeError, Schema.nonNullable, Schema.defined, Schema.test, setKey, typeErrorTest,
    nullableTest, optionalityTest, JsValue.isAbsent, typeCheck, jsLength_eq_zero,
    List.filterMap_cons, castObject_apply, JsValue.sameValueZero]
  split_ifs <;> simp_all

theorem fieldErrors_age (v : FormValues) :
    fieldErrors v .age =
      match v.age with
      | none => ["Age is required"]
      | some a =>
          match castNumber a with
          | .nan => ["Age must be a number"]
          | n =>
              (if n.geNat 18 then [] else ["You must be at least 18 years old"]) ++
                (if n.leNat 120 then [] else ["Age must be less than or equal to 120"]) := by
  have h1 : fieldErrors v .age =
      ((((Yup.number.typeError "Age must be a number").min 18
        "You must be at least 18 years old").max 120
        "Age must be less than or equal to 120").required "Age is required").validate
        (castObject v .age) (castObject v) := rfl
  rw [h1, castObject_apply]
  cases h : v.age with
  | none =>
    simp +decide [FormValues.get, h, Schema.validate, runTests,
      Schema.required, Schema.min, Schema.max, Yup.number, mkSchema,
      Schema.typeError, Schema.nonNullable, Schema.defined, Schema.test, setKey, typeErrorTest,
      nullableTest, optionalityTest, JsValue.isAbsent, typeCheck, List.filterMap_cons]
  | some a =>
    cases hn : castNumber a <;>
    simp +decide [FormValues.get, h, hn, Schema.validate, runTests,
      Schema.required, Schema.min, Schema.max, Yup.number, mkSchema,
      Schema.typeError, Schema.nonNullable, Schema.defined, Schema.test, setKey, typeErrorTest,
      nullableTest, optionalityTest, JsValue.isAbsent, typeCheck, List.filterMap_cons] <;>
    split_ifs <;> simp_all

/-! ## The entry of each field -/

theorem entry_of_required (msg : String) (raw : Option String) :
    (match raw with
      | none => [msg]
      | some s => if s = "" then [msg] else []).head? =
      match raw with
      | none => some msg
      | some s => if s = "" then some msg else none := by
  cases raw with
  | none => rfl
  | some s => by_cases h : s = "" <;> simp [h]

theorem entry_firstName (v : FormValues) :
    (validate v).lookup .firstName =
      match v.firstName with
      | none => some "First Name is required"
      | some s => if s = "" then some "First Name is required" else none := by
  rw [lookup_validate, fieldErrors_firstName, entry_of_required]

theorem entry_lastName (v : FormValues) :
    (validate v).lookup .lastName =
      match v.lastName with
      | none => some "Last Name is required"
      | some s => if s = "" then some "Last Name is required" else none := by
  rw [lookup_validate, fieldErrors_lastName, entry_of_required]

theorem entry_gender (v : FormValues) :
    (validate v).lookup .gender =
      match v.gender with
      | none => some "Gender is required"
      | some s => if s = "" then some "Gender is required" else none := by
  rw [lookup_validate, fieldErrors_gender, entry_of_required]

theorem entry_messageCntrl (v : FormValues) :
    (validate v).lookup .messageCntrl =
      match v.messageCntrl with
      | none => some "Message is required"
      | some s => if s = "" then some "Message is required" else none := by
  rw [lookup_validate, fieldErrors_messageCntrl, entry_of_required]

theorem entry_email (v : FormValues) :
    (validate v).lookup .email =
      match v.email with
      | none => some "Email is required"
      | some s =>
          if s = "" then some "Email is required"
          else if rEmail s then none else some "Invalid email format" := by
  rw [lookup_validate, fieldErrors_email]
  cases v.email with
  | none => rfl
  | some s => dsimp only; split_ifs <;> rfl

theorem entry_phoneNumber (v : FormValues) :
    (validate v).lookup .phoneNumber =
      match v.phoneNumber with
      | none => some "Phone Number is required"
      | some s => if phonePattern s then none else some "Phone Number must be 10 digits" := by
  rw [lookup_validate, fieldErrors_phoneNumber]
  cases v.phoneNumber with
  | none => rfl
  | some s =>
    dsimp only
    by_cases h : phonePattern s = true
    · have hs : s ≠ "" := by
        intro h0
        subst h0
        exact absurd h (by decide)
      simp [h, hs]
    · simp [h]

theorem entry_password (v : FormValues) :
    (validate v).lookup .password =
      match v.password with
      | none => some "Password is required"
      | some s =>
          if 8 ≤ jsLength s then none else some "Password must be at least 8 characters" := by
  rw [lookup_validate, fieldErrors_password]
  cases v.password with
  | none => rfl
  | some s =>
    dsimp only
    by_cases h : 8 ≤ jsLength s
    · have hs : s ≠ "" := by
        intro h0
        have := (jsLength_eq_zero s).mpr h0
        omega
      simp [h, hs]
    · simp [h]

theorem entry_confirmPassword (v : FormValues) :
    (validate v).lookup .confirmPassword =
      match v.confirmPassword with
      | none => some "Confirm Password is required"
      | some c =>
          if v.password = some c then
            (if c = "" then some "Confirm Password is required" else none)
          else some "Passwords must match" := by
  rw [lookup_validate, fieldErrors_confirmPassword]
  cases v.confirmPassword with
  | none => rfl
  | some s => dsimp only; split_ifs <;> rfl

theorem entry_age (v : FormValues) :
    (validate v).lookup .age =
      match v.age with
      | none => some "Age is required"
      | some a =>
          match castNumber a with
          | .nan => some "Age must be a number"
          | n =>
              if n.geNat 18 then
                (if n.leNat 120 then none else some "Age must be less than or equal to 120")
              else some "You must be at least 18 years old" := by
  rw [lookup_validate, fieldErrors_age]
  cases v.age with
  | none => rfl
  | some a =>
    dsimp only
    cases castNumber a <;> dsimp only <;> first | rfl | (split_ifs <;> simp_all)

/-- The entry of a field whose value is absent is its required-message. -/
theorem entry_of_absent (v : FormValues) (f : Field) (h : v.get f = none) :
    (validate v).lookup f = some (requiredMessage f) := by
  cases f <;> simp only [FormValues.get] at h
  · rw [entry_firstName, h]; rfl
  · rw [entry_lastName, h]; rfl
  · rw [entry_email, h]; rfl
  · rw [entry_phoneNumber, h]; rfl
  · rw [entry_password, h]; rfl
  · rw [entry_confirmPassword, h]; rfl
  · rw [entry_age, h]; rfl
  · rw [entry_gender, h]; rfl
  · rw [entry_messageCntrl, h]; rfl

/-! ## Submission -/

theorem yupResolver_of_nil (v : FormValues) (h : validate v = []) :
    (yupResolver v).values = castObject v ∧ (yupResolver v).errors = [] := by
  have h0 : validateObject v = [] := by
    rw [validate_eq, parseErrorSchema_eq_nil] at h
    exact h
  simp [yupResolver, h0]

theorem handleSubmit_eq (v : FormValues) {σ : Type} (onSubmit : FormObject → σ → σ) (st : σ) :
    handleSubmit onSubmit v st = if validate v = [] then onSubmit (castObject v) st else st := by
  by_cases h : validate v = []
  · obtain ⟨h1, h2⟩ := yupResolver_of_nil v h
    simp [handleSubmit, h, h1, h2]
  · have h2 : (yupResolver v).errors ≠ [] := h
    simp [handleSubmit, h, h2]

/-- C1. Submission gate: a submit attempt through `handleSubmit(onSubmit)` with the
resolver over `validationSchema` runs the handler exactly when `validate v` is the
empty error object; then the handler runs once, on the cast snapshot of `v`, and
otherwise it does not run. -/
theorem submission_gate (v : FormValues) {σ : Type} (onSubmit : FormObject → σ → σ) (st : σ) :
    handleSubmit onSubmit v st = (if validate v = [] then onSubmit (castObject v) st else st) ∧
      submitCalls v = (if validate v = [] then [castObject v] else []) ∧
      (submitCalls v ≠ [] ↔ validate v = []) := by
  refine ⟨handleSubmit_eq v onSubmit st, ?_, ?_⟩
  · unfold submitCalls
    rw [handleSubmit_eq]
    by_cases h : validate v = [] <;> simp [h]
  · unfold submitCalls
    rw [handleSubmit_eq]
    by_cases h : validate v = [] <;> simp [h]

/-! ## Fields that satisfy the specification's rules -/

theorem validate_nil_of_entries (v : FormValues)
    (h : ∀ f, (validate v).lookup f = none) : validate v = [] := by
  rw [validate_eq_nil]
  intro f
  have hf := h f
  rw [lookup_validate] at hf
  cases hl : fieldErrors v f with
  | nil => rfl
  | cons a t => rw [hl] at hf; simp at hf

theorem phonePattern_eq_spec (s : String) : phonePattern s = specPhoneOk s := by
  unfold phonePattern specPhoneOk
  congr 1

theorem ne_empty_of_specNameOk (s : String) (h : specNameOk s = true) : s ≠ "" := by
  intro h0
  subst h0
  exact absurd h (by decide)

theorem ne_empty_of_specGenderOk (s : String) (h : specGenderOk s = true) : s ≠ "" := by
  intro h0
  subst h0
  exact absurd h (by decide)

theorem splitAtChar_at (l : List Char) :
    splitAtChar (fun c => c == '@') l =
      (l.takeWhile (fun c => c != '@'),
        match l.dropWhile (fun c => c != '@') with
        | _ :: dom => some dom
        | [] => none) := by
  induction l with
  | nil => rfl
  | cons c rest ih =>
    unfold splitAtChar
    by_cases h : c = '@'
    · subst h
      rfl
    · have h1 : (c == '@') = false := by simpa using h
      have h2 : (c != '@') = true := by simpa using h
      rw [ih]
      simp [h1, h2, List.takeWhile_cons, List.dropWhile_cons]

theorem splitOnChar_ne_nil (p : Char → Bool) (l : List Char) : splitOnChar p l ≠ [] := by
  induction l with
  | nil => simp [splitOnChar]
  | cons c rest ih =>
    unfold splitOnChar
    cases h : splitOnChar p rest with
    | nil => exact absurd h ih
    | cons a as => by_cases hp : p c = true <;> simp [hp]

theorem splitOnChar_cons (p : Char → Bool) (c : Char) (rest : List Char) :
    splitOnChar p (c :: rest) =
      match splitOnChar p rest with
      | [] => [[]]
      | l :: ls => if p c then [] :: l :: ls else (c :: l) :: ls := rfl

theorem splitOnChar_eq_splitOnP (p : Char → Bool) (l : List Char) :
    splitOnChar p l = l.splitOnP p := by
  induction l with
  | nil => rfl
  | cons c rest ih =>
    rw [List.splitOnP_cons, ← ih, splitOnChar_cons]
    cases h : splitOnChar p rest with
    | nil => exact absurd h (splitOnChar_ne_nil p rest)
    | cons a as => by_cases hp : p c = true <;> simp [hp, List.modifyHead]

theorem isDigit_eq (c : Char) : c.isDigit = (decide (48 ≤ c.toNat) && decide (c.toNat ≤ 57)) :=
  rfl

theorem isUpper_eq (c : Char) : c.isUpper = (decide (65 ≤ c.toNat) && decide (c.toNat ≤ 90)) :=
  rfl

theorem isLower_eq (c : Char) : c.isLower = (decide (97 ≤ c.toNat) && decide (c.toNat ≤ 122)) :=
  rfl

theorem isAlnum_of_isAlphanum (c : Char) (h : c.isAlphanum = true) : isAlnum c = true := by
  simp only [Char.isAlphanum, Char.isAlpha, isDigit_eq, isUpper_eq, isLower_eq,
    Bool.or_eq_true, Bool.and_eq_true, decide_eq_true_eq] at h
  simp only [isAlnum, Bool.or_eq_true, Bool.and_eq_true, decide_eq_true_eq]
  omega

theorem isAtext_of_amended (c : Char) (h : amendedLocalChar c = true) : isAtext c = true := by
  unfold amendedLocalChar at h
  rw [Bool.or_eq_true] at h
  rcases h with h | h
  · simp [isAtext, isAlnum_of_isAlphanum c h]
  · have hm : c ∈ ".!#$%&\x27*+/=?^_\x60\x7b|\x7d~-".toList := by simpa using h
    simp only [String.toList, List.mem_cons, List.mem_singleton, List.not_mem_nil,
      or_false] at hm
    rcases hm with h | h | h | h | h | h | h | h | h | h | h | h | h | h | h | h | h | h | h | h <;>
      subst h <;> decide

theorem isLabel_of_amended (l : List Char) (h : amendedLabelOk l = true) :
    isLabel l = true := by
  cases l with
  | nil => exact absurd h (by decide)
  | cons c t =>
    simp only [amendedLabelOk, Bool.and_eq_true, decide_eq_true_eq, List.head?_cons,
      Option.any_some] at h
    obtain ⟨⟨⟨⟨_, hlen⟩, hall⟩, hhead⟩, hlast⟩ := h
    cases hl : (c :: t).getLast? with
    | none => simp at hl
    | some d =>
      rw [hl, Option.any_some] at hlast
      have hall' : ((c :: t).all fun x => isAlnum x || x == '-') = true := by
        rw [List.all_eq_true] at hall ⊢
        intro x hx
        have hx' := hall x hx
        rw [Bool.or_eq_true] at hx' ⊢
        rcases hx' with h1 | h1
        · exact Or.inl (isAlnum_of_isAlphanum x h1)
        · exact Or.inr h1
      simp only [isLabel, hl, Bool.and_eq_true, decide_eq_true_eq]
      exact ⟨⟨⟨isAlnum_of_isAlphanum c hhead, isAlnum_of_isAlphanum d hlast⟩, hlen⟩, hall'⟩

theorem rEmail_of_amended (s : String) (h : amendedEmailOk s = true) : rEmail s = true := by
  unfold rEmail
  rw [splitAtChar_at]
  simp only [amendedEmailOk, specEmailOk, localPart, domainPart, Bool.and_eq_true] at h
  obtain ⟨⟨⟨_, hspec⟩, hloc⟩, hdom⟩ := h
  cases hd : s.toList.dropWhile (fun c => c != '@') with
  | nil =>
    rw [hd] at hspec
    exact absurd hspec (by simp)
  | cons x dom =>
    rw [hd] at hspec hdom
    simp only [Bool.and_eq_true] at hspec
    have hne : (!(s.toList.takeWhile fun c => c != '@').isEmpty) = true := hspec.1.1.1
    have hl : ((s.toList.takeWhile fun c => c != '@').all isAtext) = true := by
      rw [List.all_eq_true] at hloc ⊢
      intro c hc
      exact isAtext_of_amended c (hloc c hc)
    have hlab : ((splitOnChar (fun c => c == '.') dom).all isLabel) = true := by
      rw [splitOnChar_eq_splitOnP]
      have hdom' : ((dom.splitOnP fun c => c == '.').all amendedLabelOk) = true := hdom
      rw [List.all_eq_true] at hdom' ⊢
      intro l hlmem
      exact isLabel_of_amended l (hdom' l hlmem)
    simp only [hne, hl, hlab, Bool.and_self]

/-- C2, as stated, fails: with every other field valid, the address `ann@exam_ple.com`
is non-empty and of the form local@domain with a dot in the domain, and `validate`
reports `Invalid email format`. -/
theorem spec_valid_email_rejected :
    specValid underscoreForm = true ∧
      validate underscoreForm = [(.email, "Invalid email format")] :=
  ⟨by decide, by decide⟩

/-- C2, amended. When every field satisfies its rule as the specification lists them,
the address moreover having its local part over the letters, the digits and
``.!#$%&'*+/=?^_`{|}~-`` and its domain made of dot-separated labels of 1 to 63
letters, digits or hyphens that start and end with a letter or a digit, `validate`
returns the empty error object. -/
theorem valid_fields_no_error (v : FormValues) (h : amendedValid v = true) :
    validate v = [] := by
  simp only [amendedValid, otherRulesHold, Bool.and_eq_true] at h
  obtain ⟨⟨⟨⟨⟨⟨⟨⟨h1, h2⟩, h4⟩, h5⟩, h6, h6'⟩, h7⟩, h8⟩, h9⟩, h3⟩ := h
  apply validate_nil_of_entries
  intro f
  cases f
  · rw [entry_firstName]
    cases hv : v.firstName with
    | none => simp [hv, holdsOn] at h1
    | some s =>
      rw [hv] at h1
      simp [ne_empty_of_specNameOk s h1]
  · rw [entry_lastName]
    cases hv : v.lastName with
    | none => simp [hv, holdsOn] at h2
    | some s =>
      rw [hv] at h2
      simp [ne_empty_of_specNameOk s h2]
  · rw [entry_email]
    cases hv : v.email with
    | none => simp [hv, holdsOn] at h3
    | some s =>
      rw [hv] at h3
      simp only [holdsOn] at h3
      have hr := rEmail_of_amended s h3
      have hne : s ≠ "" := by
        intro h0
        subst h0
        exact absurd h3 (by decide)
      simp [hr, hne]
  · rw [entry_phoneNumber]
    cases hv : v.phoneNumber with
    | none => simp [hv, holdsOn] at h4
    | some s =>
      rw [hv] at h4
      simp only [holdsOn] at h4
      simp [phonePattern_eq_spec, h4]
  · rw [entry_password]
    cases hv : v.password with
    | none => simp [hv, holdsOn] at h5
    | some s =>
      rw [hv] at h5
      simp only [holdsOn, specPasswordOk, decide_eq_true_eq] at h5
      simp [h5]
  · rw [entry_confirmPassword]
    cases hv : v.password with
    | none => simp [hv, holdsOn] at h5
    | some p =>
      rw [hv] at h5 h6'
      simp only [holdsOn, specPasswordOk, decide_eq_true_eq] at h5
      have hp : p ≠ "" := by
        intro h0
        have := (jsLength_eq_zero p).mpr h0
        omega
      have hc : v.confirmPassword = some p := by simpa using h6'
      simp [hc, hp]
  · rw [entry_age]
    cases hv : v.age with
    | none => simp [hv, holdsOn] at h7
    | some a =>
      rw [hv] at h7
      simp only [holdsOn, specAgeOk] at h7
      cases hn : castNumber a <;> rw [hn] at h7 <;> simp_all
  · rw [entry_gender]
    cases hv : v.gender with
    | none => simp [hv, holdsOn] at h8
    | some s =>
      rw [hv] at h8
      simp [ne_empty_of_specGenderOk s h8]
  · rw [entry_messageCntrl]
    cases hv : v.messageCntrl with
    | none => simp [hv, holdsOn] at h9
    | some s =>
      rw [hv] at h9
      simp only [holdsOn, bne_iff_ne, ne_eq] at h9
      simp [h9]

/-- Witness of C2 amended: the form with every field valid and the message `Hello`
satisfies the rules and validates to the empty error object. -/
theorem valid_fields_no_error_witness :
    amendedValid validForm = true ∧ specValid validForm = true ∧
      validForm.messageCntrl = some "Hello" ∧ validate validForm = [] :=
  ⟨by decide, by decide, rfl, valid_fields_no_error validForm (by decide)⟩

/-! ## Missing values -/

/-- C3. Evaluation of the schema on empty fields: an empty phoneNumber, password,
age, or confirmPassword (beside a non-empty password) gets the message of its
format rule and not its required-message, while a field that is absent gets its
required-message. -/
theorem required_message_shadowed :
    (validate { validForm with phoneNumber := some "" }).lookup .phoneNumber =
        some "Phone Number must be 10 digits" ∧
      (validate { validForm with password := some "" }).lookup .password =
        some "Password must be at least 8 characters" ∧
      (validate { validForm with age := some "" }).lookup .age = some "Age must be a number" ∧
      (validate { validForm with confirmPassword := some "" }).lookup .confirmPassword =
        some "Passwords must match" ∧
      (validate { validForm with firstName := some "" }).lookup .firstName =
        some "First Name is required" ∧
      ∀ (v : FormValues) (f : Field), v.get f = none →
        (validate v).lookup f = some (requiredMessage f) :=
  ⟨by decide, by decide, by decide, by decide, by decide, entry_of_absent⟩

/-! ## Password confirmation -/

/-- C4, as stated, fails on the untouched form: password and confirmPassword are
both the empty string, hence equal, and confirmPassword has an entry. -/
theorem confirm_entry_on_equal_empty :
    emptyForm.confirmPassword = emptyForm.password ∧
      (validate emptyForm).lookup .confirmPassword = some "Confirm Password is required" :=
  ⟨rfl, by decide⟩

/-- C4, amended. The error object has an entry for confirmPassword exactly when
confirmPassword differs from password or confirmPassword is missing (absent or the
empty string). -/
theorem confirm_entry_iff (v : FormValues) :
    ((validate v).lookup .confirmPassword).isSome = true ↔
      (v.confirmPassword ≠ v.password ∨ v.confirmPassword = none ∨
        v.confirmPassword = some "") := by
  rw [entry_confirmPassword]
  cases hc : v.confirmPassword with
  | none => simp
  | some c =>
    by_cases hp : v.password = some c
    · by_cases h0 : c = "" <;> simp [hp, h0]
    · have hp' : ¬ some c = v.password := fun h => hp h.symm
      simp [hp, hp']

/-! ## Age -/

/-- C5. Age rule on a raw input string `a`: there is no entry for age exactly when
`a` parses as a number between 18 and 120; an input that does not parse gets
`Age must be a number`, a number below 18 gets `You must be at least 18 years old`,
a number above 120 gets `Age must be less than or equal to 120`; 18 and 120 are
accepted, 17 and 121 rejected, and `abc` gets the type message. -/
theorem age_rule (v : FormValues) (a : String) :
    ((validate { v with age := some a }).lookup .age = none ↔ specAgeOk a = true) ∧
      (validate { v with age := some a }).lookup .age =
        (match castNumber a with
          | .nan => some "Age must be a number"
          | n =>
              if n.geNat 18 = false then some "You must be at least 18 years old"
              else if n.leNat 120 = false then some "Age must be less than or equal to 120"
              else none) ∧
      (validate { v with age := some "18" }).lookup .age = none ∧
      (validate { v with age := some "120" }).lookup .age = none ∧
      (validate { v with age := some "17" }).lookup .age =
        some "You must be at least 18 years old" ∧
      (validate { v with age := some "121" }).lookup .age =
        some "Age must be less than or equal to 120" ∧
      (validate { v with age := some "abc" }).lookup .age = some "Age must be a number" := by
  have key : ∀ b : String, (validate { v with age := some b }).lookup .age =
      (match castNumber b with
        | .nan => some "Age must be a number"
        | n =>
            if n.geNat 18 = false then some "You must be at least 18 years old"
            else if n.leNat 120 = false then some "Age must be less than or equal to 120"
            else none) := by
    intro b
    rw [entry_age]
    dsimp only
    cases castNumber b <;> dsimp only <;> first | rfl | (split_ifs <;> simp_all)
  refine ⟨?_, key a, ?_, ?_, ?_, ?_, ?_⟩
  · rw [key a]
    unfold specAgeOk
    cases castNumber a <;> dsimp only <;> first | (simp; done) | (split_ifs <;> simp_all)
  · rw [key]; decide
  · rw [key]; decide
  · rw [key]; decide
  · rw [key]; decide
  · rw [key]; decide

/-! ## Phone number -/

/-- C6. Phone rule on a string `s`: there is no entry for phoneNumber exactly when `s`
is ten characters, each a decimal digit; a non-empty `s` of another shape gets
`Phone Number must be 10 digits`, as does `12345`, and ten digits followed by a
newline are rejected. -/
theorem phone_rule (v : FormValues) (s : String) :
    ((validate { v with phoneNumber := some s }).lookup .phoneNumber = none ↔
        specPhoneOk s = true) ∧
      (s ≠ "" → specPhoneOk s = false →
        (validate { v with phoneNumber := some s }).lookup .phoneNumber =
          some "Phone Number must be 10 digits") ∧
      (validate { v with phoneNumber := some "12345" }).lookup .phoneNumber =
        some "Phone Number must be 10 digits" ∧
      (validate { v with phoneNumber := some "0123456789\n" }).lookup .phoneNumber =
        some "Phone Number must be 10 digits" := by
  have key : ∀ t : String, (validate { v with phoneNumber := some t }).lookup .phoneNumber =
      if specPhoneOk t then none else some "Phone Number must be 10 digits" := by
    intro t
    rw [entry_phoneNumber]
    dsimp only
    rw [phonePattern_eq_spec]
  refine ⟨?_, ?_, ?_, ?_⟩
  · rw [key]
    by_cases h : specPhoneOk s = true <;> simp [h]
  · intro _ h
    rw [key]
    simp [h]
  · rw [key]; decide
  · rw [key]; decide

/-- Witness of C6: the input `12345`. -/
theorem phone_rule_witness :
    (validate { validForm with phoneNumber := some "12345" }).lookup .phoneNumber =
      some "Phone Number must be 10 digits" :=
  (phone_rule validForm "12345").2.1 (by decide) (by decide)

/-! ## Gender -/

/-- C7, as stated, fails: `Unknown` is none of the enumerated values and gets no
entry for gender. -/
theorem gender_outside_enum_accepted :
    specGenderOk "Unknown" = false ∧
      (validate { validForm with gender := some "Unknown" }).lookup .gender = none :=
  ⟨by decide, by decide⟩

/-- C7, amended. There is no entry for gender exactly when the value is not the empty
string; on the option values of the form's select this is exactly when the value is
one of `Male`, `Female`, `Other`, and the empty string gets `Gender is required`. -/
theorem gender_rule (v : FormValues) (g : String) :
    ((validate { v with gender := some g }).lookup .gender = none ↔ g ≠ "") ∧
      (g ∈ genderOptions →
        ((validate { v with gender := some g }).lookup .gender = none ↔
          specGenderOk g = true)) ∧
      (validate { v with gender := some "" }).lookup .gender = some "Gender is required" := by
  have key : ∀ t : String, (validate { v with gender := some t }).lookup .gender =
      if t = "" then some "Gender is required" else none := by
    intro t
    rw [entry_gender]
  refine ⟨?_, ?_, ?_⟩
  · rw [key]
    by_cases h : g = "" <;> simp [h]
  · intro hg
    rw [key]
    simp only [genderOptions, List.mem_cons, List.mem_singleton, List.not_mem_nil,
      or_false] at hg
    rcases hg with h | h | h | h <;> subst h <;> decide
  · rw [key]; rfl

/-- Witness of C7 amended: the option `Female`. -/
theorem gender_rule_witness :
    (validate { validForm with gender := some "Female" }).lookup .gender = none :=
  ((gender_rule validForm "Female").2.1 (by decide)).mpr (by decide)

/-! ## Names -/

/-- C8, as stated, fails: a first name (or last name) that is one space is empty
after trimming and gets no entry. -/
theorem blank_name_accepted :
    specNameOk " " = false ∧
      (validate { validForm with firstName := some " " }).lookup .firstName = none ∧
      (validate { validForm with lastName := some " " }).lookup .lastName = none :=
  ⟨by decide, by decide, by decide⟩

/-- C8, amended. The error object has an entry for firstName (respectively lastName)
exactly when the value is the empty string, no trimming applied; the entry is then
`First Name is required` (respectively `Last Name is required`). -/
theorem name_rule (v : FormValues) (s : String) :
    (validate { v with firstName := some s }).lookup .firstName =
        (if s = "" then some "First Name is required" else none) ∧
      (validate { v with lastName := some s }).lookup .lastName =
        (if s = "" then some "Last Name is required" else none) ∧
      (((validate { v with firstName := some s }).lookup .firstName).isSome = true ↔ s = "") ∧
      (((validate { v with lastName := some s }).lookup .lastName).isSome = true ↔ s = "") := by
  have k1 : (validate { v with firstName := some s }).lookup .firstName =
      (if s = "" then some "First Name is required" else none) := by
    rw [entry_firstName]
  have k2 : (validate { v with lastName := some s }).lookup .lastName =
      (if s = "" then some "Last Name is required" else none) := by
    rw [entry_lastName]
  refine ⟨k1, k2, ?_, ?_⟩
  · rw [k1]
    by_cases h : s = "" <;> simp [h]
  · rw [k2]
    by_cases h : s = "" <;> simp [h]

/-! ## Password -/

/-- C9. Password rule on a string `p`: there is no entry for password exactly when the
length of `p` is at least 8; a password of length 1 to 7 gets
`Password must be at least 8 characters`, and one of length 8 is accepted. -/
theorem password_rule (v : FormValues) (p : String) :
    ((validate { v with password := some p }).lookup .password = none ↔ 8 ≤ jsLength p) ∧
      (1 ≤ jsLength p ∧ jsLength p ≤ 7 →
        (validate { v with password := some p }).lookup .password =
          some "Password must be at least 8 characters") ∧
      (validate { v with password := some "12345678" }).lookup .password = none ∧
      (validate { v with password := some "1234567" }).lookup .password =
        some "Password must be at least 8 characters" := by
  have key : ∀ t : String, (validate { v with password := some t }).lookup .password =
      if 8 ≤ jsLength t then none else some "Password must be at least 8 characters" := by
    intro t
    rw [entry_password]
  refine ⟨?_, ?_, ?_, ?_⟩
  · rw [key]
    by_cases h : 8 ≤ jsLength p <;> simp [h]
  · intro h
    rw [key]
    have : ¬ 8 ≤ jsLength p := by omega
    simp [this]
  · rw [key]; decide
  · rw [key]; decide

/-- Witness of C9: a password of seven characters. -/
theorem password_rule_witness :
    (validate { validForm with password := some "1234567" }).lookup .password =
      some "Password must be at least 8 characters" :=
  (password_rule validForm "1234567").2.1 (by decide)

/-! ## Independence of the fields -/

/-- C10. Per-field independence: two forms that give a field the same value (and, for
confirmPassword, also the same password) have the same entry for that field; an
empty gender gets `Gender is required` whatever the other fields hold. -/
theorem field_independence (f : Field) (v1 v2 : FormValues) (hf : v1.get f = v2.get f)
    (hp : f = .confirmPassword → v1.password = v2.password) :
    (validate v1).lookup f = (validate v2).lookup f ∧
      (v1.gender = some "" → (validate v1).lookup .gender = some "Gender is required") := by
  constructor
  · cases f <;> simp only [FormValues.get] at hf
    · rw [entry_firstName, entry_firstName, hf]
    · rw [entry_lastName, entry_lastName, hf]
    · rw [entry_email, entry_email, hf]
    · rw [entry_phoneNumber, entry_phoneNumber, hf]
    · rw [entry_password, entry_password, hf]
    · rw [entry_confirmPassword, entry_confirmPassword, hf, hp rfl]
    · rw [entry_age, entry_age, hf]
    · rw [entry_gender, entry_gender, hf]
    · rw [entry_messageCntrl, entry_messageCntrl, hf]
  · intro hg
    rw [entry_gender, hg]
    rfl

/-- Witness of C10: an empty gender beside valid fields and beside empty fields. -/
theorem field_independence_witness :
    (validate { validForm with gender := some "" }).lookup .gender =
        (validate emptyForm).lookup .gender ∧
      (validate { validForm with gender := some "" }).lookup .gender =
        some "Gender is required" :=
  have h := field_independence .gender { validForm with gender := some "" } emptyForm rfl
    (fun h => nomatch h)
  ⟨h.1, h.2 rfl⟩

end UserForm
